import Mathlib

/-!
Shallow embedding of the Vulkan bootstrap program (HelloTriangleApplication):
queue-family resolution, physical-device selection, logical-device creation,
and the acquire/release lifecycle of the run loop.
-/

/-- `VK_QUEUE_GRAPHICS_BIT` from the Vulkan headers. -/
def VK_QUEUE_GRAPHICS_BIT : Nat := 1

/-- One entry of the per-adapter queue-family array, as observed by the scan:
`queueCount` and `queueFlags` come from `VkQueueFamilyProperties`;
`presentSupport` is the boolean answered by
`vkGetPhysicalDeviceSurfaceSupportKHR(device, i, surface, ...)` for this
family index against the surface fixed for the whole run. -/
structure QueueFamily where
  queueCount : Nat
  queueFlags : Nat
  presentSupport : Bool
deriving DecidableEq, Repr

/-- An adapter (`VkPhysicalDevice`), as far as the selection pipeline
observes it: its enumerated queue-family array. -/
abbrev PhysicalDevice : Type := List QueueFamily

/-- `struct QueueFamilyIndices` with its `-1` sentinel initializers. -/
structure QueueFamilyIndices where
  graphicsFamily : Int := -1
  presentFamily : Int := -1
deriving DecidableEq, Repr

/-- `QueueFamilyIndices::isComplete`: both fields non-negative. -/
def QueueFamilyIndices.isComplete (q : QueueFamilyIndices) : Bool :=
  decide (q.graphicsFamily ≥ 0) && decide (q.presentFamily ≥ 0)

/-- The graphics test of the scan body:
`queueFamily.queueCount > 0 && queueFamily.queueFlags & VK_QUEUE_GRAPHICS_BIT`. -/
def qualifiesGraphics (q : QueueFamily) : Bool :=
  decide (q.queueCount > 0) && decide (q.queueFlags &&& VK_QUEUE_GRAPHICS_BIT ≠ 0)

/-- The present test of the scan body:
`queueFamily.queueCount > 0 && presentSupport`. -/
def qualifiesPresent (q : QueueFamily) : Bool :=
  decide (q.queueCount > 0) && q.presentSupport

/-- The loop of `findQueueFamilies`: for each family at index `i`, record
`graphicsFamily = i` on a graphics match, record `presentFamily = i` on a
present match, and break as soon as the indices are complete. -/
def findQueueFamiliesAux : List QueueFamily → Nat → QueueFamilyIndices → QueueFamilyIndices
  | [], _, indices => indices
  | q :: rest, i, indices =>
    let indices1 := if qualifiesGraphics q then { indices with graphicsFamily := (i : Int) } else indices
    let indices2 := if qualifiesPresent q then { indices1 with presentFamily := (i : Int) } else indices1
    if indices2.isComplete then indices2 else findQueueFamiliesAux rest (i + 1) indices2

/-- `findQueueFamilies(device)`: scan the enumerated queue families starting
from `i = 0` with both indices at the `-1` sentinel. -/
def findQueueFamilies (device : PhysicalDevice) : QueueFamilyIndices :=
  findQueueFamiliesAux device 0 {}

/-- Number of loop iterations `findQueueFamiliesAux` performs: each iteration
examines exactly one queue family. -/
def findQueueFamiliesCountAux : List QueueFamily → Nat → QueueFamilyIndices → Nat
  | [], _, _ => 0
  | q :: rest, i, indices =>
    let indices1 := if qualifiesGraphics q then { indices with graphicsFamily := (i : Int) } else indices
    let indices2 := if qualifiesPresent q then { indices1 with presentFamily := (i : Int) } else indices1
    if indices2.isComplete then 1 else 1 + findQueueFamiliesCountAux rest (i + 1) indices2

/-- Number of queue families `findQueueFamilies(device)` examines. -/
def findQueueFamiliesCount (device : PhysicalDevice) : Nat :=
  findQueueFamiliesCountAux device 0 {}

/-- The error taxonomy: one constructor per distinct `std::runtime_error`
thrown during initialization, in the spec's names. -/
inductive RunError where
  | instanceCreationError
  | surfaceCreationError
  | noAdaptersFoundError
  | noSuitableAdapterError
  | deviceCreationError
deriving DecidableEq, Repr

/-- `isDeviceSuitable(device)`: the queue-family indices are complete. -/
def isDeviceSuitable (device : PhysicalDevice) : Bool :=
  (findQueueFamilies device).isComplete

/-- The loop of `pickPhysicalDevice`: take the first suitable device and
break; `physicalDevice` stays `VK_NULL_HANDLE` (here `none`) otherwise. -/
def pickLoop : List PhysicalDevice → Option PhysicalDevice
  | [] => none
  | d :: rest => if isDeviceSuitable d then some d else pickLoop rest

/-- Number of loop iterations of `pickPhysicalDevice`: each iteration calls
`isDeviceSuitable` on exactly one adapter. -/
def pickExaminedCount : List PhysicalDevice → Nat
  | [] => 0
  | d :: rest => if isDeviceSuitable d then 1 else 1 + pickExaminedCount rest

/-- `pickPhysicalDevice`: throw if the enumeration is empty, scan for the
first suitable adapter, throw if none was found. -/
def pickPhysicalDevice (devices : List PhysicalDevice) : Except RunError PhysicalDevice :=
  if devices.length = 0 then .error .noAdaptersFoundError
  else
    match pickLoop devices with
    | some d => .ok d
    | none => .error .noSuitableAdapterError

/-- `VkDeviceQueueCreateInfo` as filled by `createLogicalDevice`:
family index, queue count, and the single priority value pointed to. -/
structure VkDeviceQueueCreateInfo where
  queueFamilyIndex : Int
  queueCount : Nat
  queuePriority : ℚ
deriving DecidableEq, Repr

/-- `float queuePriority = 1.0f` (exactly representable). -/
def queuePriority : ℚ := 1

/-- `std::set<int> uniqueQueueFamilies = { graphicsFamily, presentFamily }`,
iterated in the set's increasing order. -/
def uniqueQueueFamilies (g p : Int) : List Int :=
  if g = p then [g] else if g < p then [g, p] else [p, g]

/-- The queue-creation requests `createLogicalDevice` pushes: one per member
of `uniqueQueueFamilies`, each with `queueCount = 1` and the shared
priority. -/
def queueCreateInfos (indices : QueueFamilyIndices) : List VkDeviceQueueCreateInfo :=
  (uniqueQueueFamilies indices.graphicsFamily indices.presentFamily).map
    (fun f => { queueFamilyIndex := f, queueCount := 1, queuePriority := queuePriority })

/-- The `vkGetDeviceQueue` calls `createLogicalDevice` makes after device
creation, as (family index, queue index) pairs: the snapshot retrieves only
the present-family queue at index 0. -/
def retrievedQueues (indices : QueueFamilyIndices) : List (Int × Nat) :=
  [(indices.presentFamily, 0)]

/-- The handles the run acquires and releases. -/
inductive Handle where
  | window
  | vkInstance
  | surface
  | device
deriving DecidableEq, Repr

/-- One lifecycle event: a handle acquisition or a handle destruction. -/
inductive Event where
  | acquire (h : Handle)
  | release (h : Handle)
deriving DecidableEq, Repr

/-- The acquisitions of a trace, in order. -/
def acquiresOf (tr : List Event) : List Handle :=
  tr.filterMap (fun e => match e with | .acquire h => some h | .release _ => none)

/-- The releases of a trace, in order. -/
def releasesOf (tr : List Event) : List Handle :=
  tr.filterMap (fun e => match e with | .acquire _ => none | .release h => some h)

/-- Environment of one run: whether `vkCreateInstance`,
`glfwCreateWindowSurface` and `vkCreateDevice` succeed, and the adapter
list `vkEnumeratePhysicalDevices` reports. -/
structure WorldConfig where
  instanceOk : Bool
  surfaceOk : Bool
  adapters : List PhysicalDevice
  deviceOk : Bool
deriving DecidableEq, Repr

/-- `run()`: `initWindow`, then `initVulkan` (`createInstance`,
`createSurface`, `pickPhysicalDevice`, `createLogicalDevice`), then
`mainLoop`, then `cleanup`. Any thrown error propagates immediately —
`cleanup` runs only on the happy path. The trace lists the handle events
in program order. -/
def runModel (cfg : WorldConfig) : List Event × Except RunError Unit :=
  if !cfg.instanceOk then
    ([.acquire .window], .error .instanceCreationError)
  else if !cfg.surfaceOk then
    ([.acquire .window, .acquire .vkInstance], .error .surfaceCreationError)
  else
    match pickPhysicalDevice cfg.adapters with
    | .error e => ([.acquire .window, .acquire .vkInstance, .acquire .surface], .error e)
    | .ok _ =>
      if !cfg.deviceOk then
        ([.acquire .window, .acquire .vkInstance, .acquire .surface], .error .deviceCreationError)
      else
        ([.acquire .window, .acquire .vkInstance, .acquire .surface, .acquire .device,
          .release .device, .release .surface, .release .vkInstance, .release .window], .ok ())

/-- `main`: catch the propagated error and exit non-zero, else exit 0. -/
def mainResult (cfg : WorldConfig) : Nat :=
  match (runModel cfg).2 with
  | .ok _ => 0
  | .error _ => 1

/-- The body of one scan iteration (both conditional field updates),
shared by `findQueueFamiliesAux` and its iteration counter. -/
def scanStep (q : QueueFamily) (i : Nat) (indices : QueueFamilyIndices) : QueueFamilyIndices :=
  let indices1 := if qualifiesGraphics q then { indices with graphicsFamily := (i : Int) } else indices
  if qualifiesPresent q then { indices1 with presentFamily := (i : Int) } else indices1

/-- Index of the last family of `fams` (counting from `i`) satisfying `p`,
with `acc` when none does: the overwrite-on-match semantics of the scan. -/
def lastQualifyingAux (p : QueueFamily → Bool) : List QueueFamily → Nat → Int → Int
  | [], _, acc => acc
  | q :: rest, i, acc => lastQualifyingAux p rest (i + 1) (if p q then (i : Int) else acc)

/-- Index of the last family of `fams` satisfying `p`, or `-1`. -/
def lastQualifying (p : QueueFamily → Bool) (fams : List QueueFamily) : Int :=
  lastQualifyingAux p fams 0 (-1)

/-- Index of the first family of `fams` satisfying `p`, or `-1`:
the field value the spec's lowest-index tie-break sentence prescribes. -/
def lowestQualifying (p : QueueFamily → Bool) (fams : List QueueFamily) : Int :=
  match fams.findIdx? p with
  | some i => (i : Int)
  | none => -1

/-- The spec's tie-break sentence, taken literally: in a complete selection
each field holds the lowest index of a family qualifying for that field. -/
def resolverAssignsLowest : Prop :=
  ∀ fams : List QueueFamily,
    (findQueueFamilies fams).isComplete = true →
    (findQueueFamilies fams).graphicsFamily = lowestQualifying qualifiesGraphics fams ∧
    (findQueueFamilies fams).presentFamily = lowestQualifying qualifiesPresent fams

theorem scanStep_eq (q : QueueFamily) (i : Nat) (indices : QueueFamilyIndices) :
    scanStep q i indices =
      { graphicsFamily := if qualifiesGraphics q then (i : Int) else indices.graphicsFamily,
        presentFamily := if qualifiesPresent q then (i : Int) else indices.presentFamily } := by
  unfold scanStep
  by_cases hg : qualifiesGraphics q <;> by_cases hp : qualifiesPresent q <;> simp [hg, hp]

theorem findQueueFamiliesAux_cons (q : QueueFamily) (rest : List QueueFamily) (i : Nat)
    (indices : QueueFamilyIndices) :
    findQueueFamiliesAux (q :: rest) i indices =
      if (scanStep q i indices).isComplete then scanStep q i indices
      else findQueueFamiliesAux rest (i + 1) (scanStep q i indices) := rfl

theorem findQueueFamiliesCountAux_cons (q : QueueFamily) (rest : List QueueFamily) (i : Nat)
    (indices : QueueFamilyIndices) :
    findQueueFamiliesCountAux (q :: rest) i indices =
      if (scanStep q i indices).isComplete then 1
      else 1 + findQueueFamiliesCountAux rest (i + 1) (scanStep q i indices) := rfl

theorem findQueueFamiliesAux_eq_lastQualifying (fams : List QueueFamily) :
    ∀ (i : Nat) (indices : QueueFamilyIndices),
      findQueueFamiliesAux fams i indices =
        { graphicsFamily := lastQualifyingAux qualifiesGraphics
            (List.take (findQueueFamiliesCountAux fams i indices) fams) i indices.graphicsFamily,
          presentFamily := lastQualifyingAux qualifiesPresent
            (List.take (findQueueFamiliesCountAux fams i indices) fams) i indices.presentFamily } := by
  induction fams with
  | nil => intro i indices; rfl
  | cons q rest ih =>
    intro i indices
    rw [findQueueFamiliesAux_cons, findQueueFamiliesCountAux_cons]
    by_cases hC : (scanStep q i indices).isComplete
    · rw [if_pos hC, if_pos hC]
      simp [lastQualifyingAux, scanStep_eq]
    · rw [if_neg hC, if_neg hC, ih, Nat.add_comm 1, List.take_succ_cons]
      simp [lastQualifyingAux, scanStep_eq]

theorem findQueueFamiliesCountAux_min (fams : List QueueFamily) :
    ∀ (i : Nat) (indices : QueueFamilyIndices),
      indices.isComplete = false →
      ∀ m, m < findQueueFamiliesCountAux fams i indices →
        (findQueueFamiliesAux (List.take m fams) i indices).isComplete = false := by
  induction fams with
  | nil => intro i indices _ m hm; simp [findQueueFamiliesCountAux] at hm
  | cons q rest ih =>
    intro i indices h m hm
    rw [findQueueFamiliesCountAux_cons] at hm
    by_cases hC : (scanStep q i indices).isComplete
    · rw [if_pos hC] at hm
      interval_cases m
      simpa [findQueueFamiliesAux] using h
    · rw [if_neg hC] at hm
      match m with
      | 0 => simpa [findQueueFamiliesAux] using h
      | m + 1 =>
        rw [List.take_succ_cons, findQueueFamiliesAux_cons, if_neg hC]
        exact ih (i + 1) (scanStep q i indices) (by simpa using hC) m (by omega)

theorem findQueueFamiliesAux_append (l1 : List QueueFamily) :
    ∀ (l2 : List QueueFamily) (i : Nat) (indices : QueueFamilyIndices),
      indices.isComplete = false →
      (findQueueFamiliesAux l1 i indices).isComplete = true →
      findQueueFamiliesAux (l1 ++ l2) i indices = findQueueFamiliesAux l1 i indices ∧
      findQueueFamiliesCountAux (l1 ++ l2) i indices = findQueueFamiliesCountAux l1 i indices := by
  induction l1 with
  | nil =>
    intro l2 i indices h hc
    simp [findQueueFamiliesAux] at hc
    rw [hc] at h
    exact absurd h (by simp)
  | cons q rest ih =>
    intro l2 i indices h hc
    rw [findQueueFamiliesAux_cons] at hc
    rw [List.cons_append, findQueueFamiliesAux_cons, findQueueFamiliesAux_cons,
      findQueueFamiliesCountAux_cons, findQueueFamiliesCountAux_cons]
    by_cases hC : (scanStep q i indices).isComplete
    · simp [hC]
    · simp only [hC, if_false] at hc ⊢
      have := ih l2 (i + 1) (scanStep q i indices) (by simpa using hC) hc
      exact ⟨this.1, by rw [this.2]⟩

theorem findQueueFamiliesCountAux_le (fams : List QueueFamily) :
    ∀ (i : Nat) (indices : QueueFamilyIndices),
      findQueueFamiliesCountAux fams i indices ≤ fams.length := by
  induction fams with
  | nil => intro i indices; simp [findQueueFamiliesCountAux]
  | cons q rest ih =>
    intro i indices
    rw [findQueueFamiliesCountAux_cons]
    by_cases hC : (scanStep q i indices).isComplete
    · rw [if_pos hC]; simp
    · rw [if_neg hC]
      simp only [List.length_cons]
      have := ih (i + 1) (scanStep q i indices)
      omega

theorem lastQualifyingAux_bound (p : QueueFamily → Bool) (l : List QueueFamily) :
    ∀ (i : Nat) (acc : Int),
      lastQualifyingAux p l i acc = acc ∨
      ((i : Int) ≤ lastQualifyingAux p l i acc ∧
        lastQualifyingAux p l i acc < (i : Int) + l.length) := by
  induction l with
  | nil => intro i acc; left; rfl
  | cons q rest ih =>
    intro i acc
    rw [lastQualifyingAux]
    rcases ih (i + 1) (if p q then (i : Int) else acc) with h | h
    · rw [h]
      by_cases hq : p q
      · right
        rw [if_pos hq]
        refine ⟨le_refl _, ?_⟩
        simp only [List.length_cons]
        push_cast
        omega
      · left; rw [if_neg hq]
    · right
      refine ⟨?_, ?_⟩
      · have hle : ((i : Int)) ≤ ((i + 1 : Nat) : Int) := by push_cast; omega
        exact le_trans hle h.1
      · have h2 := h.2
        simp only [List.length_cons]
        push_cast at h2 ⊢
        omega

theorem isComplete_iff (indices : QueueFamilyIndices) :
    indices.isComplete = true ↔
      (0 ≤ indices.graphicsFamily ∧ 0 ≤ indices.presentFamily) := by
  simp [QueueFamilyIndices.isComplete, ge_iff_le]

theorem scanStep_graphics_nonneg (q : QueueFamily) (i : Nat) (indices : QueueFamilyIndices) :
    0 ≤ (scanStep q i indices).graphicsFamily ↔
      (0 ≤ indices.graphicsFamily ∨ qualifiesGraphics q = true) := by
  rw [scanStep_eq]
  by_cases hg : qualifiesGraphics q
  · simp [hg, Int.natCast_nonneg]
  · simp [hg]

theorem scanStep_present_nonneg (q : QueueFamily) (i : Nat) (indices : QueueFamilyIndices) :
    0 ≤ (scanStep q i indices).presentFamily ↔
      (0 ≤ indices.presentFamily ∨ qualifiesPresent q = true) := by
  rw [scanStep_eq]
  by_cases hp : qualifiesPresent q
  · simp [hp, Int.natCast_nonneg]
  · simp [hp]

theorem findQueueFamiliesAux_graphics_nonneg (fams : List QueueFamily) :
    ∀ (i : Nat) (indices : QueueFamilyIndices),
      0 ≤ (findQueueFamiliesAux fams i indices).graphicsFamily ↔
        (0 ≤ indices.graphicsFamily ∨ ∃ q ∈ fams, qualifiesGraphics q = true) := by
  induction fams with
  | nil => intro i indices; simp [findQueueFamiliesAux]
  | cons q rest ih =>
    intro i indices
    rw [findQueueFamiliesAux_cons]
    by_cases hC : (scanStep q i indices).isComplete
    · rw [if_pos hC]
      have h1 := ((isComplete_iff _).mp hC).1
      constructor
      · intro _
        rcases (scanStep_graphics_nonneg q i indices).mp h1 with h | h
        · exact Or.inl h
        · exact Or.inr ⟨q, by simp, h⟩
      · intro _; exact h1
    · rw [if_neg hC, ih, scanStep_graphics_nonneg]
      constructor
      · rintro ((h | h) | ⟨a, ha, hqa⟩)
        · exact Or.inl h
        · exact Or.inr ⟨q, by simp, h⟩
        · exact Or.inr ⟨a, by simp [ha], hqa⟩
      · rintro (h | ⟨a, ha, hqa⟩)
        · exact Or.inl (Or.inl h)
        · rcases List.mem_cons.mp ha with rfl | ha2
          · exact Or.inl (Or.inr hqa)
          · exact Or.inr ⟨a, ha2, hqa⟩

theorem findQueueFamiliesAux_present_nonneg (fams : List QueueFamily) :
    ∀ (i : Nat) (indices : QueueFamilyIndices),
      0 ≤ (findQueueFamiliesAux fams i indices).presentFamily ↔
        (0 ≤ indices.presentFamily ∨ ∃ q ∈ fams, qualifiesPresent q = true) := by
  induction fams with
  | nil => intro i indices; simp [findQueueFamiliesAux]
  | cons q rest ih =>
    intro i indices
    rw [findQueueFamiliesAux_cons]
    by_cases hC : (scanStep q i indices).isComplete
    · rw [if_pos hC]
      have h1 := ((isComplete_iff _).mp hC).2
      constructor
      · intro _
        rcases (scanStep_present_nonneg q i indices).mp h1 with h | h
        · exact Or.inl h
        · exact Or.inr ⟨q, by simp, h⟩
      · intro _; exact h1
    · rw [if_neg hC, ih, scanStep_present_nonneg]
      constructor
      · rintro ((h | h) | ⟨a, ha, hqa⟩)
        · exact Or.inl h
        · exact Or.inr ⟨q, by simp, h⟩
        · exact Or.inr ⟨a, by simp [ha], hqa⟩
      · rintro (h | ⟨a, ha, hqa⟩)
        · exact Or.inl (Or.inl h)
        · rcases List.mem_cons.mp ha with rfl | ha2
          · exact Or.inl (Or.inr hqa)
          · exact Or.inr ⟨a, ha2, hqa⟩

theorem pickLoop_first (pre : List PhysicalDevice) :
    ∀ (d : PhysicalDevice) (post : List PhysicalDevice),
      (∀ a ∈ pre, isDeviceSuitable a = false) → isDeviceSuitable d = true →
      pickLoop (pre ++ d :: post) = some d ∧
      pickExaminedCount (pre ++ d :: post) = pre.length + 1 := by
  induction pre with
  | nil =>
    intro d post _ h2
    simp [pickLoop, pickExaminedCount, h2]
  | cons a pre ih =>
    intro d post h1 h2
    have ha : isDeviceSuitable a = false := h1 a (by simp)
    have hrest := ih d post (fun x hx => h1 x (by simp [hx])) h2
    rw [List.cons_append]
    constructor
    · rw [pickLoop, if_neg (by simp [ha]), hrest.1]
    · rw [pickExaminedCount, if_neg (by simp [ha]), hrest.2]
      simp [Nat.add_comm]

theorem pickLoop_eq_none_iff (devices : List PhysicalDevice) :
    pickLoop devices = none ↔ ∀ a ∈ devices, isDeviceSuitable a = false := by
  induction devices with
  | nil => simp [pickLoop]
  | cons d rest ih =>
    cases hd : isDeviceSuitable d
    · simp [pickLoop, hd, ih]
    · simp [pickLoop, hd]

theorem pickExaminedCount_all (devices : List PhysicalDevice) :
    (∀ a ∈ devices, isDeviceSuitable a = false) →
    pickExaminedCount devices = devices.length := by
  induction devices with
  | nil => intro _; rfl
  | cons d rest ih =>
    intro h
    have hd : isDeviceSuitable d = false := h d (by simp)
    rw [pickExaminedCount, if_neg (by simp [hd]), ih (fun a ha => h a (by simp [ha]))]
    simp [Nat.add_comm]

/-- C1 counterexample: on the adapter whose family 0 is graphics-only and
whose family 1 is graphics-and-present, the scan overwrites
`graphicsFamily` to 1 before completeness stops it, so `graphicsFamily` is
not the lowest graphics-qualifying index (which is 0). -/
theorem c1_lowest_index_counterexample : ¬ resolverAssignsLowest := by
  intro h
  have := (h [⟨1, 1, false⟩, ⟨1, 1, true⟩] (by decide)).1
  exact absurd this (by decide)

/-- C1 (amended): for every adapter and surface, the single linear scan
stops at the lowest family index at which completeness is achieved (no
strictly shorter scanned prefix is complete), and assigns to each field the
last qualifying family index among the families actually scanned
(overwrite-on-match); the same index may be assigned to both fields. -/
theorem c1_scan_last_match_before_stop (fams : List QueueFamily) :
    findQueueFamilies fams =
      { graphicsFamily :=
          lastQualifying qualifiesGraphics (List.take (findQueueFamiliesCount fams) fams),
        presentFamily :=
          lastQualifying qualifiesPresent (List.take (findQueueFamiliesCount fams) fams) } ∧
    (∀ m, m < findQueueFamiliesCount fams →
      (findQueueFamilies (List.take m fams)).isComplete = false) := by
  constructor
  · exact findQueueFamiliesAux_eq_lastQualifying fams 0 {}
  · intro m hm
    exact findQueueFamiliesCountAux_min fams 0 {} (by decide) m hm

/-- C1 witness: on `[graphics-only, graphics-and-present]` the scan examines
two families, both fields end at the last match (index 1, the same index for
both), and the one-family prefix is not complete. -/
theorem c1_scan_last_match_witness :
    findQueueFamilies [⟨1, 1, false⟩, ⟨1, 1, true⟩] =
      { graphicsFamily :=
          lastQualifying qualifiesGraphics
            (List.take (findQueueFamiliesCount [⟨1, 1, false⟩, ⟨1, 1, true⟩])
              [⟨1, 1, false⟩, ⟨1, 1, true⟩]),
        presentFamily :=
          lastQualifying qualifiesPresent
            (List.take (findQueueFamiliesCount [⟨1, 1, false⟩, ⟨1, 1, true⟩])
              [⟨1, 1, false⟩, ⟨1, 1, true⟩]) } ∧
    (findQueueFamilies (List.take 1 [⟨1, 1, false⟩, ⟨1, 1, true⟩])).isComplete = false :=
  ⟨(c1_scan_last_match_before_stop [⟨1, 1, false⟩, ⟨1, 1, true⟩]).1,
    (c1_scan_last_match_before_stop [⟨1, 1, false⟩, ⟨1, 1, true⟩]).2 1
      (by decide)⟩

/-- C7: the scan stops as soon as completeness is reached: appending any
further families changes neither the result nor the number of families
examined, and the scan never examines more families than the list has. -/
theorem c7_short_circuit (l1 l2 : List QueueFamily)
    (h : (findQueueFamilies l1).isComplete = true) :
    findQueueFamilies (l1 ++ l2) = findQueueFamilies l1 ∧
    findQueueFamiliesCount (l1 ++ l2) = findQueueFamiliesCount l1 ∧
    findQueueFamiliesCount l1 ≤ l1.length := by
  have happ := findQueueFamiliesAux_append l1 l2 0 {} (by decide) h
  exact ⟨happ.1, happ.2, findQueueFamiliesCountAux_le l1 0 {}⟩

/-- C7 witness: once the first (complete) family is scanned, a second
qualifying family is never examined. -/
theorem c7_short_circuit_witness :
    findQueueFamilies ([⟨1, 1, true⟩] ++ [⟨1, 1, true⟩]) = findQueueFamilies [⟨1, 1, true⟩] ∧
    findQueueFamiliesCount ([⟨1, 1, true⟩] ++ [⟨1, 1, true⟩]) =
      findQueueFamiliesCount [⟨1, 1, true⟩] ∧
    findQueueFamiliesCount [⟨1, 1, true⟩] ≤ [QueueFamily.mk 1 1 true].length :=
  c7_short_circuit [⟨1, 1, true⟩] [⟨1, 1, true⟩] (by decide)

/-- C9: the resolver never fails: it returns a (possibly incomplete)
selection for every adapter — on zero queue families both fields stay at the
`-1` sentinel, and in general each field is either the sentinel or a valid
family index below the family count. -/
theorem c9_resolver_total :
    findQueueFamilies [] = { graphicsFamily := -1, presentFamily := -1 } ∧
    ∀ fams : List QueueFamily,
      (-1 ≤ (findQueueFamilies fams).graphicsFamily ∧
        (findQueueFamilies fams).graphicsFamily < fams.length) ∧
      (-1 ≤ (findQueueFamilies fams).presentFamily ∧
        (findQueueFamilies fams).presentFamily < fams.length) := by
  refine ⟨rfl, ?_⟩
  intro fams
  have heq := findQueueFamiliesAux_eq_lastQualifying fams 0 {}
  have hg := lastQualifyingAux_bound qualifiesGraphics
    (List.take (findQueueFamiliesCountAux fams 0 {}) fams) 0 (-1)
  have hp := lastQualifyingAux_bound qualifiesPresent
    (List.take (findQueueFamiliesCountAux fams 0 {}) fams) 0 (-1)
  have hlen : (List.take (findQueueFamiliesCountAux fams 0 {}) fams).length ≤ fams.length := by
    simp [List.length_take]
  rw [show findQueueFamilies fams = findQueueFamiliesAux fams 0 {} from rfl, heq]
  dsimp only
  constructor
  · rcases hg with h | h
    · rw [h]; omega
    · omega
  · rcases hp with h | h
    · rw [h]; omega
    · omega

/-- C10: the resolver's result is complete exactly when the family list has
a graphics-qualifying family and a present-qualifying family, and the
selector's suitability test coincides with that existence predicate. -/
theorem c10_complete_iff_exists (fams : List QueueFamily) :
    ((findQueueFamilies fams).isComplete = true ↔
      ((∃ q ∈ fams, qualifiesGraphics q = true) ∧ (∃ q ∈ fams, qualifiesPresent q = true))) ∧
    (isDeviceSuitable fams = true ↔
      ((∃ q ∈ fams, qualifiesGraphics q = true) ∧ (∃ q ∈ fams, qualifiesPresent q = true))) := by
  have hmain : (findQueueFamilies fams).isComplete = true ↔
      ((∃ q ∈ fams, qualifiesGraphics q = true) ∧ (∃ q ∈ fams, qualifiesPresent q = true)) := by
    rw [isComplete_iff]
    rw [show findQueueFamilies fams = findQueueFamiliesAux fams 0 {} from rfl]
    rw [findQueueFamiliesAux_graphics_nonneg fams 0 {},
      findQueueFamiliesAux_present_nonneg fams 0 {}]
    simp
  exact ⟨hmain, hmain⟩

/-- C2: the selector returns the first adapter, in enumeration order, whose
queue-family selection is complete, and the suitability test runs exactly
once per adapter up to and including that one — adapters after it are never
examined. -/
theorem c2_first_suitable_adapter (pre : List PhysicalDevice) (d : PhysicalDevice)
    (post : List PhysicalDevice)
    (h1 : ∀ a ∈ pre, isDeviceSuitable a = false) (h2 : isDeviceSuitable d = true) :
    pickPhysicalDevice (pre ++ d :: post) = .ok d ∧
    pickExaminedCount (pre ++ d :: post) = pre.length + 1 := by
  have hfirst := pickLoop_first pre d post h1 h2
  refine ⟨?_, hfirst.2⟩
  unfold pickPhysicalDevice
  rw [if_neg (by simp), hfirst.1]

/-- C2 witness: over `[A(incomplete), B(complete), C(complete)]` the selector
returns `B` and examines exactly two adapters, never `C`. -/
theorem c2_first_suitable_adapter_witness :
    pickPhysicalDevice ([[⟨1, 1, false⟩]] ++ [⟨1, 1, true⟩] :: [[⟨1, 1, true⟩]]) =
      .ok [⟨1, 1, true⟩] ∧
    pickExaminedCount ([[⟨1, 1, false⟩]] ++ [⟨1, 1, true⟩] :: [[⟨1, 1, true⟩]]) =
      [[QueueFamily.mk 1 1 false]].length + 1 :=
  c2_first_suitable_adapter [[⟨1, 1, false⟩]] [⟨1, 1, true⟩] [[⟨1, 1, true⟩]]
    (by decide) (by decide)

/-- C8: the selector fails with `NoAdaptersFoundError` exactly on the empty
enumeration, and on a non-empty all-unsuitable list it fails with
`NoSuitableAdapterError` after examining every one of the adapters. -/
theorem c8_selector_errors (devices : List PhysicalDevice) :
    (pickPhysicalDevice devices = .error .noAdaptersFoundError ↔ devices = []) ∧
    ((∀ a ∈ devices, isDeviceSuitable a = false) → devices ≠ [] →
      pickPhysicalDevice devices = .error .noSuitableAdapterError ∧
      pickExaminedCount devices = devices.length) := by
  constructor
  · constructor
    · intro h
      by_contra hne
      unfold pickPhysicalDevice at h
      rw [if_neg (by simpa using hne)] at h
      cases hl : pickLoop devices <;> rw [hl] at h <;> simp at h
    · intro h; subst h; rfl
  · intro hall hne
    refine ⟨?_, pickExaminedCount_all devices hall⟩
    unfold pickPhysicalDevice
    rw [if_neg (by simpa using hne), (pickLoop_eq_none_iff devices).mpr hall]

/-- C8 witness: a one-adapter list whose adapter is unsuitable yields
`NoSuitableAdapterError` after examining that one adapter. -/
theorem c8_selector_errors_witness :
    pickPhysicalDevice [[⟨1, 1, false⟩]] = .error .noSuitableAdapterError ∧
    pickExaminedCount [[⟨1, 1, false⟩]] = [[QueueFamily.mk 1 1 false]].length :=
  (c8_selector_errors [[⟨1, 1, false⟩]]).2 (by decide) (by decide)

/-- C3: for every complete selection, the builder issues one device-queue
creation request per distinct required family index — one when the two
fields agree, two when they differ — the requested family indices are
exactly the two fields without duplicates, and every request asks for a
single queue at priority 1. -/
theorem c3_one_request_per_distinct_family (indices : QueueFamilyIndices)
    (_h : indices.isComplete = true) :
    ((queueCreateInfos indices).map VkDeviceQueueCreateInfo.queueFamilyIndex).Nodup ∧
    (∀ ci ∈ queueCreateInfos indices, ci.queueCount = 1 ∧ ci.queuePriority = 1) ∧
    (∀ f : Int, f ∈ (queueCreateInfos indices).map VkDeviceQueueCreateInfo.queueFamilyIndex ↔
      (f = indices.graphicsFamily ∨ f = indices.presentFamily)) ∧
    (queueCreateInfos indices).length =
      (if indices.graphicsFamily = indices.presentFamily then 1 else 2) := by
  unfold queueCreateInfos uniqueQueueFamilies
  by_cases he : indices.graphicsFamily = indices.presentFamily
  · rw [if_pos he, if_pos he]
    simp [queuePriority, he]
  · rw [if_neg he, if_neg he]
    by_cases hlt : indices.graphicsFamily < indices.presentFamily
    · rw [if_pos hlt]
      refine ⟨by simp [he], by simp [queuePriority], ?_, by simp⟩
      intro f
      simp
    · rw [if_neg hlt]
      refine ⟨by simp [Ne.symm he], by simp [queuePriority], ?_, by simp⟩
      intro f
      simp
      exact Or.comm

/-- C3 witness: `graphicsFamily == presentFamily == 2` yields exactly one
request, for family 2, with one queue at priority 1. -/
theorem c3_one_request_per_distinct_family_witness :
    ((queueCreateInfos { graphicsFamily := 2, presentFamily := 2 }).map
      VkDeviceQueueCreateInfo.queueFamilyIndex).Nodup ∧
    (∀ ci ∈ queueCreateInfos { graphicsFamily := 2, presentFamily := 2 },
      ci.queueCount = 1 ∧ ci.queuePriority = 1) ∧
    (∀ f : Int, f ∈ (queueCreateInfos { graphicsFamily := 2, presentFamily := 2 }).map
        VkDeviceQueueCreateInfo.queueFamilyIndex ↔
      (f = ({ graphicsFamily := 2, presentFamily := 2 } : QueueFamilyIndices).graphicsFamily ∨
        f = ({ graphicsFamily := 2, presentFamily := 2 } : QueueFamilyIndices).presentFamily)) ∧
    (queueCreateInfos { graphicsFamily := 2, presentFamily := 2 }).length =
      (if ({ graphicsFamily := 2, presentFamily := 2 } : QueueFamilyIndices).graphicsFamily =
          ({ graphicsFamily := 2, presentFamily := 2 } : QueueFamilyIndices).presentFamily
        then 1 else 2) :=
  c3_one_request_per_distinct_family { graphicsFamily := 2, presentFamily := 2 } (by decide)

/-- C4: on every successful run the acquisitions are, in order, window,
instance, surface, device, and teardown releases them in the exact reverse
order: device, surface, instance, window. -/
theorem c4_teardown_reverse (cfg : WorldConfig) (h : (runModel cfg).2 = .ok ()) :
    acquiresOf (runModel cfg).1 = [.window, .vkInstance, .surface, .device] ∧
    releasesOf (runModel cfg).1 = [.device, .surface, .vkInstance, .window] ∧
    releasesOf (runModel cfg).1 = (acquiresOf (runModel cfg).1).reverse := by
  unfold runModel at h ⊢
  cases hI : cfg.instanceOk with
  | false => simp [hI] at h
  | true =>
    cases hS : cfg.surfaceOk with
    | false => simp [hI, hS] at h
    | true =>
      cases hP : pickPhysicalDevice cfg.adapters with
      | error e => simp [hI, hS, hP] at h
      | ok d =>
        cases hD : cfg.deviceOk with
        | false => simp [hI, hS, hP, hD] at h
        | true => exact ⟨rfl, rfl, rfl⟩

/-- C4 witness: a run with one suitable adapter and no failures acquires
window, instance, surface, device and releases them in reverse. -/
theorem c4_teardown_reverse_witness :
    acquiresOf (runModel ⟨true, true, [[⟨1, 1, true⟩]], true⟩).1 =
      [.window, .vkInstance, .surface, .device] ∧
    releasesOf (runModel ⟨true, true, [[⟨1, 1, true⟩]], true⟩).1 =
      [.device, .surface, .vkInstance, .window] ∧
    releasesOf (runModel ⟨true, true, [[⟨1, 1, true⟩]], true⟩).1 =
      (acquiresOf (runModel ⟨true, true, [[⟨1, 1, true⟩]], true⟩).1).reverse :=
  c4_teardown_reverse ⟨true, true, [[⟨1, 1, true⟩]], true⟩ rfl

/-- C5 (code evaluation): with the distinct complete selection
`graphicsFamily = 0`, `presentFamily = 1`, the snapshot's builder performs
exactly one queue retrieval — the present family at queue-index 0 — and
never retrieves the graphics-family queue, contradicting the claimed
per-required-family retrieval. -/
theorem c5_only_present_queue_retrieved :
    retrievedQueues { graphicsFamily := 0, presentFamily := 1 } = [((1 : Int), (0 : Nat))] ∧
    ((0 : Int), (0 : Nat)) ∉ retrievedQueues { graphicsFamily := 0, presentFamily := 1 } := by
  exact ⟨rfl, by decide⟩

/-- C6 (code evaluation): when surface creation fails after the window and
instance were acquired, the run ends in the surface error with no release
event at all — the acquired handles are leaked, contradicting the claimed
error-path release. -/
theorem c6_no_release_on_error_path :
    (runModel { instanceOk := true, surfaceOk := false, adapters := [], deviceOk := true }).1 =
      [Event.acquire .window, Event.acquire .vkInstance] ∧
    releasesOf
      (runModel { instanceOk := true, surfaceOk := false, adapters := [], deviceOk := true }).1 =
      [] ∧
    (runModel { instanceOk := true, surfaceOk := false, adapters := [], deviceOk := true }).2 =
      .error .surfaceCreationError :=
  ⟨rfl, rfl, rfl⟩
